import Mathlib

/-!
Shallow embedding of the SENSE dashboard streaming orchestrator
(`src/unnamed/part_004`, with near-duplicate logic in
`src/unnamed/part_003`): the PCM playback engine, the microphone PCM16
encoder, the gated Gemini send path, the Gemini close/reconnect handler,
the relay-viewer message handler with the video frame throttle, and the
bounded activity log.  Machine floats are modelled as rationals (the
arithmetic performed on them — clamping, scaling by 32768/32767,
division by 32768 — is exact), JavaScript `undefined` reads out of a
typed array are modelled as `none`, and byte strings as lists of
naturals reduced mod 256.
-/

namespace Sense

/-! ## AudioPlaybackEngine: `createPcmPlayer` (part_004 lines 154-202) -/

/-- Two bytes, little endian, read as a signed 16-bit integer
(`DataView.getInt16(i * 2, true)`). -/
def toInt16 (lo hi : ℕ) : ℤ :=
  let v : ℤ := (lo % 256 : ℕ) + 256 * ((hi % 256 : ℕ) : ℤ)
  if v < 32768 then v else v - 65536

/-- The decode loop of `feed`: consecutive little-endian int16 pairs,
each divided by 32768 (`view.getInt16(i * 2, true) / 32768`).  A
trailing odd byte is dropped, as `new Float32Array(buf.byteLength / 2)`
floors the length. -/
def decodePcm16 : List ℕ → List ℚ
  | lo :: hi :: rest => ((toInt16 lo hi : ℚ) / 32768) :: decodePcm16 rest
  | _ => []

/-- State of `createPcmPlayer`: the FIFO `queue` of decoded frames, the
frame currently being drained and the cursor into it. -/
structure PcmPlayer where
  queue : List (List ℚ)
  currentChunk : Option (List ℚ)
  offset : ℕ
  deriving Repr, DecidableEq

/-- Initial player state (`queue = []`, no current chunk). -/
def PcmPlayer.init : PcmPlayer := ⟨[], none, 0⟩

/-- The `feed(base64Audio)` body after base64 decoding: decode the bytes
to samples and push the frame on the queue. -/
def PcmPlayer.feed (p : PcmPlayer) (bytes : List ℕ) : PcmPlayer :=
  { p with queue := p.queue ++ [decodePcm16 bytes] }

/-- The `clear()` body: empty the queue, drop the current chunk, reset
the cursor. -/
def PcmPlayer.clear (_ : PcmPlayer) : PcmPlayer := ⟨[], none, 0⟩

/-- The first `if` of the `onaudioprocess` while-loop body:
`if (!currentChunk || offset >= currentChunk.length) { currentChunk =
queue.shift() ?? null; offset = 0 }`. -/
def PcmPlayer.advance (p : PcmPlayer) : PcmPlayer :=
  match p.currentChunk with
  | none => ⟨p.queue.tail, p.queue.head?, 0⟩
  | some c =>
    if c.length ≤ p.offset then ⟨p.queue.tail, p.queue.head?, 0⟩ else p

/-- One iteration of the `onaudioprocess` while-loop: produce the value
written to `output[i]` and the successor state.  `some q` is a real
sample value; `none` is the `NaN` a JavaScript typed array stores on an
out-of-range read (`currentChunk[offset]` with `offset ≥ length`). -/
def PcmPlayer.renderStep (p : PcmPlayer) : Option ℚ × PcmPlayer :=
  let q := p.advance
  match q.currentChunk with
  | none => (some 0, q)
  | some c => (c.get? q.offset, { q with offset := q.offset + 1 })

/-- The whole `onaudioprocess` callback for an output buffer of `n`
samples: iterate `renderStep` `n` times. -/
def PcmPlayer.render : PcmPlayer → ℕ → List (Option ℚ) × PcmPlayer
  | p, 0 => ([], p)
  | p, n + 1 =>
    let s := p.renderStep
    let r := s.2.render n
    (s.1 :: r.1, r.2)

/-- The samples still to be drained: the rest of the current chunk, then
the queued frames in order. -/
def PcmPlayer.rem (p : PcmPlayer) : List ℚ :=
  (match p.currentChunk with
   | some c => c.drop p.offset
   | none => []) ++ p.queue.flatten

/-- All frames sitting in the queue are non-empty. -/
def PcmPlayer.chunksNonempty (p : PcmPlayer) : Prop :=
  ∀ c ∈ p.queue, c ≠ []

/-- Feed a list of byte payloads in order. -/
def PcmPlayer.feedAll (p : PcmPlayer) (bs : List (List ℕ)) : PcmPlayer :=
  bs.foldl PcmPlayer.feed p

lemma renderStep_spec (p : PcmPlayer) (h : p.chunksNonempty) :
    p.renderStep.2.chunksNonempty ∧
    ((p.rem = [] ∧ p.renderStep.1 = some 0 ∧ p.renderStep.2.rem = []) ∨
     (∃ x xs, p.rem = x :: xs ∧ p.renderStep.1 = some x ∧
       p.renderStep.2.rem = xs)) := by
  obtain ⟨qs, cur, off⟩ := p
  have hq : ∀ c ∈ qs, c ≠ [] := h
  rcases cur with _ | c
  · rcases qs with _ | ⟨c, qs'⟩
    · refine ⟨?_, Or.inl ⟨rfl, rfl, rfl⟩⟩
      intro d hd
      exact absurd hd (List.not_mem_nil d)
    · obtain ⟨y, ys, rfl⟩ :=
        List.exists_cons_of_ne_nil (hq c (List.mem_cons_self c qs'))
      have hstep : (PcmPlayer.mk ((y :: ys) :: qs') none off).renderStep
          = (some y, ⟨qs', some (y :: ys), 1⟩) := rfl
      refine ⟨?_, Or.inr ⟨y, ys ++ qs'.flatten, ?_, ?_, ?_⟩⟩
      · rw [hstep]
        intro d hd
        exact hq d (List.mem_cons_of_mem _ hd)
      · simp [PcmPlayer.rem]
      · rw [hstep]
      · rw [hstep]
        simp [PcmPlayer.rem]
  · by_cases hoff : c.length ≤ off
    · have hdrop : c.drop off = [] := List.drop_eq_nil_of_le hoff
      rcases qs with _ | ⟨d, qs'⟩
      · have hadv : (PcmPlayer.mk [] (some c) off).advance
            = ⟨[], none, 0⟩ := by
          simp only [PcmPlayer.advance]
          rw [if_pos hoff]
          rfl
        have hstep : (PcmPlayer.mk [] (some c) off).renderStep
            = (some 0, ⟨[], none, 0⟩) := by
          simp [PcmPlayer.renderStep, hadv]
        refine ⟨?_, Or.inl ⟨?_, ?_, ?_⟩⟩
        · rw [hstep]
          intro d hd
          exact absurd hd (List.not_mem_nil d)
        · simp [PcmPlayer.rem, hdrop]
        · rw [hstep]
        · rw [hstep]
          simp [PcmPlayer.rem]
      · obtain ⟨y, ys, rfl⟩ :=
          List.exists_cons_of_ne_nil (hq d (List.mem_cons_self d qs'))
        have hadv : (PcmPlayer.mk ((y :: ys) :: qs') (some c) off).advance
            = ⟨qs', some (y :: ys), 0⟩ := by
          simp only [PcmPlayer.advance]
          rw [if_pos hoff]
          rfl
        have hstep : (PcmPlayer.mk ((y :: ys) :: qs') (some c) off).renderStep
            = (some y, ⟨qs', some (y :: ys), 1⟩) := by
          simp [PcmPlayer.renderStep, hadv]
        refine ⟨?_, Or.inr ⟨y, ys ++ qs'.flatten, ?_, ?_, ?_⟩⟩
        · rw [hstep]
          intro e he
          exact hq e (List.mem_cons_of_mem _ he)
        · simp [PcmPlayer.rem, hdrop]
        · rw [hstep]
        · rw [hstep]
          simp [PcmPlayer.rem]
    · push_neg at hoff
      have hnle : ¬ c.length ≤ off := Nat.not_le.mpr hoff
      have hadv : (PcmPlayer.mk qs (some c) off).advance
          = ⟨qs, some c, off⟩ := by
        simp only [PcmPlayer.advance]
        rw [if_neg hnle]
      have hstep : (PcmPlayer.mk qs (some c) off).renderStep
          = (some (c.get ⟨off, hoff⟩), ⟨qs, some c, off + 1⟩) := by
        simp only [PcmPlayer.renderStep, hadv]
        rw [List.get?_eq_get hoff]
      refine ⟨?_, Or.inr ⟨c.get ⟨off, hoff⟩,
        c.drop (off + 1) ++ qs.flatten, ?_, ?_, ?_⟩⟩
      · rw [hstep]
        exact hq
      · have hd : c.drop off = c.get ⟨off, hoff⟩ :: c.drop (off + 1) := by
          rw [List.get_eq_getElem]
          exact List.drop_eq_getElem_cons hoff
        show c.drop off ++ qs.flatten = _
        rw [hd, List.cons_append]
      · rw [hstep]
      · rw [hstep]
        rfl

lemma render_length (n : ℕ) : ∀ p : PcmPlayer, ((p.render n).1).length = n := by
  induction n with
  | zero => intro p; simp [PcmPlayer.render]
  | succ n ih => intro p; simp [PcmPlayer.render, ih]

lemma render_spec (n : ℕ) : ∀ (p : PcmPlayer), p.chunksNonempty →
    (p.render n).1
      = (p.rem.take n).map some
        ++ List.replicate (n - p.rem.length) (some 0) := by
  induction n with
  | zero => intro p _; simp [PcmPlayer.render]
  | succ n ih =>
    intro p hp
    obtain ⟨hne, hcase⟩ := renderStep_spec p hp
    have hrec := ih p.renderStep.2 hne
    rcases hcase with ⟨hrem, h1, h2⟩ | ⟨x, xs, hrem, h1, h2⟩
    · simp only [PcmPlayer.render, h1, hrec, h2, hrem]
      simp [List.replicate_succ]
    · simp only [PcmPlayer.render, h1, hrec, h2, hrem]
      simp [List.replicate, Nat.succ_sub_succ]

lemma feedAll_queue (bs : List (List ℕ)) : ∀ (p : PcmPlayer),
    p.feedAll bs
      = ⟨p.queue ++ bs.map decodePcm16, p.currentChunk, p.offset⟩ := by
  induction bs with
  | nil => intro p; simp [PcmPlayer.feedAll]
  | cons b bs ih =>
    intro p
    have : p.feedAll (b :: bs) = (p.feed b).feedAll bs := rfl
    rw [this, ih]
    simp [PcmPlayer.feed]

lemma decodePcm16_ne_nil (b : List ℕ) (hb : b ≠ []) (he : b.length % 2 = 0) :
    decodePcm16 b ≠ [] := by
  match b with
  | [] => exact absurd rfl hb
  | [x] => simp at he
  | x :: y :: rest => simp [decodePcm16]

/-- C3: on every render tick the whole output buffer is produced (its
length always equals the requested tick size, with no failure case), and
for frames that are well-formed base64-decoded PCM16 payloads (non-empty,
even byte count) the rendered output is exactly the concatenation of the
decoded frames in feed order, truncated to the tick size, with every
position past the fed data filled with the zero (silence) sample. -/
theorem playback_drain_fifo_silence :
    (∀ (p : PcmPlayer) (n : ℕ), ((p.render n).1).length = n) ∧
    (∀ (bs : List (List ℕ)) (n : ℕ),
      (∀ b ∈ bs, b ≠ [] ∧ b.length % 2 = 0) →
      ((PcmPlayer.init.feedAll bs).render n).1
        = (((bs.map decodePcm16).flatten.take n).map some)
          ++ List.replicate (n - (bs.map decodePcm16).flatten.length)
              (some 0)) := by
  constructor
  · intro p n; exact render_length n p
  · intro bs n hbs
    have hq := feedAll_queue bs PcmPlayer.init
    have hne : (PcmPlayer.init.feedAll bs).chunksNonempty := by
      rw [hq]
      intro c hc
      simp [PcmPlayer.init] at hc
      obtain ⟨b, hb, rfl⟩ := hc
      exact decodePcm16_ne_nil b (hbs b hb).1 (hbs b hb).2
    have hrem : (PcmPlayer.init.feedAll bs).rem
        = (bs.map decodePcm16).flatten := by
      rw [hq]; simp [PcmPlayer.rem, PcmPlayer.init]
    rw [render_spec n _ hne, hrem]

/-- Witness for C3 at concrete payloads: two frames decoding to samples
1/32768, −1, 32767/32768, rendered over a 5-sample tick, end in two
silence samples. -/
theorem playback_drain_fifo_silence_witness :
    (∀ b ∈ [[1, 0], [0, 128, 255, 127]], b ≠ [] ∧ b.length % 2 = 0) ∧
    ((PcmPlayer.init.feedAll [[1, 0], [0, 128, 255, 127]]).render 5).1
      = [some (1 / 32768), some (-1), some (32767 / 32768),
         some 0, some 0] := by
  constructor
  · decide
  · have h := playback_drain_fifo_silence.2 [[1, 0], [0, 128, 255, 127]] 5
      (by decide)
    rw [h]
    simp [decodePcm16, toInt16]

/-! ## AudioCaptureEngine: `float32ToBase64Pcm16` (part_004 lines
204-214) and the identical inline mic encoder of part_003 lines
337-350 -/

/-- Truncation toward zero, as JavaScript applies to a finite number
stored into an `Int16Array` slot. -/
def ratTrunc (q : ℚ) : ℤ := if q < 0 then ⌈q⌉ else ⌊q⌋

/-- The mod-2^16 signed wrap an `Int16Array` store performs on the
truncated value. -/
def int16Store (z : ℤ) : ℤ := (z + 32768) % 65536 - 32768

/-- One sample of the mic encoder: `const s = Math.max(-1, Math.min(1,
float32[i])); int16[i] = s < 0 ? s * 0x8000 : s * 0x7fff`. -/
def encodePcm16Sample (x : ℚ) : ℤ :=
  let s := max (-1) (min 1 x)
  int16Store (ratTrunc (if s < 0 then s * 32768 else s * 32767))

/-- The sample loop of `float32ToBase64Pcm16` (the base64 serialization
of the resulting byte buffer is not modelled; the claim concerns the
encoded sample values). -/
def float32ToPcm16 (xs : List ℚ) : List ℤ := xs.map encodePcm16Sample

lemma encodePcm16Sample_bounds (x : ℚ) :
    -32768 ≤ encodePcm16Sample x ∧ encodePcm16Sample x ≤ 32767 ∧
    encodePcm16Sample x
      = ratTrunc (if max (-1) (min 1 x) < 0 then max (-1) (min 1 x) * 32768
          else max (-1) (min 1 x) * 32767) := by
  set s : ℚ := max (-1) (min 1 x) with hs
  have hs1 : -1 ≤ s := le_max_left _ _
  have hs2 : s ≤ 1 := max_le (by norm_num) (min_le_left _ _)
  have hv : -32768 ≤ ratTrunc (if s < 0 then s * 32768 else s * 32767) ∧
      ratTrunc (if s < 0 then s * 32768 else s * 32767) ≤ 32767 := by
    by_cases hneg : s < 0
    · rw [if_pos hneg]
      have hvlo : (-32768 : ℚ) ≤ s * 32768 := by nlinarith
      have hvhi : s * 32768 < 0 := by nlinarith
      rw [ratTrunc, if_pos hvhi]
      constructor
      · have : ((-32768 : ℤ) : ℚ) ≤ s * 32768 := by push_cast; linarith
        calc (-32768 : ℤ) = ⌈((-32768 : ℤ) : ℚ)⌉ := (Int.ceil_intCast _).symm
          _ ≤ ⌈s * 32768⌉ := Int.ceil_le_ceil this
      · have : ⌈s * 32768⌉ ≤ 0 := Int.ceil_le.mpr (by exact_mod_cast hvhi.le)
        omega
    · rw [if_neg hneg]
      push_neg at hneg
      have hvlo : (0 : ℚ) ≤ s * 32767 := by nlinarith
      have hvhi : s * 32767 ≤ 32767 := by nlinarith
      have hnlt : ¬ s * 32767 < 0 := not_lt.mpr hvlo
      rw [ratTrunc, if_neg hnlt]
      constructor
      · have : 0 ≤ ⌊s * 32767⌋ := Int.floor_nonneg.mpr hvlo
        omega
      · have : ((32767 : ℤ) : ℚ) = (32767 : ℚ) := by push_cast; ring
        calc ⌊s * 32767⌋ ≤ ⌊(32767 : ℚ)⌋ := Int.floor_le_floor hvhi
          _ = 32767 := by norm_num
  have hid : int16Store (ratTrunc (if s < 0 then s * 32768 else s * 32767))
      = ratTrunc (if s < 0 then s * 32768 else s * 32767) := by
    rw [int16Store]
    omega
  refine ⟨?_, ?_, ?_⟩
  · rw [encodePcm16Sample, ← hs, hid]; exact hv.1
  · rw [encodePcm16Sample, ← hs, hid]; exact hv.2
  · rw [encodePcm16Sample, ← hs, hid]

/-- C9: every microphone sample is hard-clamped to [-1, 1] and scaled
(negative samples by 32768, non-negative by 32767) before the int16
store, so every encoded sample lies in [-32768, 32767] and the
mod-2^16 wrap of the store is the identity — no input, however large,
wraps around. -/
theorem pcm16_encode_no_wraparound :
    (∀ x : ℚ,
      -32768 ≤ encodePcm16Sample x ∧ encodePcm16Sample x ≤ 32767 ∧
      encodePcm16Sample x
        = ratTrunc (if max (-1) (min 1 x) < 0 then max (-1) (min 1 x) * 32768
            else max (-1) (min 1 x) * 32767)) ∧
    (∀ (xs : List ℚ), ∀ e ∈ float32ToPcm16 xs,
      -32768 ≤ e ∧ e ≤ 32767) := by
  refine ⟨encodePcm16Sample_bounds, ?_⟩
  intro xs e he
  rw [float32ToPcm16, List.mem_map] at he
  obtain ⟨x, _, rfl⟩ := he
  exact ⟨(encodePcm16Sample_bounds x).1, (encodePcm16Sample_bounds x).2.1⟩

/-- Witness for C9 at a clipped input block: the out-of-range sample 5/2
is clamped and encoded in range. -/
theorem pcm16_encode_no_wraparound_witness :
    encodePcm16Sample (5 / 2) ∈ float32ToPcm16 [5 / 2, -7] ∧
    (-32768 ≤ encodePcm16Sample (5 / 2) ∧ encodePcm16Sample (5 / 2) ≤ 32767) := by
  have hmem : encodePcm16Sample (5 / 2) ∈ float32ToPcm16 [5 / 2, -7] := by
    rw [float32ToPcm16]
    exact List.mem_map_of_mem encodePcm16Sample (by simp)
  exact ⟨hmem, pcm16_encode_no_wraparound.2 [5 / 2, -7] _ hmem⟩

/-! ## `DashboardPage` session state (part_004 lines 251-548) -/

/-- The `MAX_LOG` constant (part_004 line 110). -/
def MAX_LOG : ℕ := 120

/-- The `WebSocket.OPEN` ready-state constant. -/
def wsOPEN : ℕ := 1

/-- The fixed reconnect delay `window.setTimeout(..., 1200)` of the
Gemini `onclose` handler (part_004 line 413). -/
def GEMINI_RECONNECT_DELAY_MS : ℕ := 1200

/-- One entry of the activity event log; `id` is the JavaScript number
`Date.now() + Math.random()` and `time` the formatted clock time, both
environment inputs. -/
structure LogEntry where
  id : ℚ
  time : String
  text : String
  deriving Repr, DecidableEq

/-- The `addLog` state update (part_004 lines 283-288, part_003 lines
156-161): prepend the new entry and truncate to `MAX_LOG`
(`[entry, ...prev].slice(0, MAX_LOG)`). -/
def addLog (entry : LogEntry) (prev : List LogEntry) : List LogEntry :=
  (entry :: prev).take MAX_LOG

/-- The same update restricted to the entry texts, used by the session
state model (entry ids and timestamps are ambient environment data). -/
def addLogText (t : String) (prev : List String) : List String :=
  (t :: prev).take MAX_LOG

/-- The orchestrator state touched by the Gemini session handlers:
`mountedRef`, `sessionRef` (presence of the session object),
`geminiConnectedRef` (the cached connected flag), the `geminiConnected`
and `sessionActive` React states, `intentionalGeminiCloseRef`,
`geminiReconnectTimerRef` (the pending delay, `none` when no timer is
scheduled) and the activity log texts. -/
structure DashState where
  mounted : Bool
  sessionPresent : Bool
  geminiConnected : Bool
  geminiConnectedUI : Bool
  sessionActive : Bool
  intentionalClose : Bool
  reconnectTimer : Option ℕ
  log : List String
  deriving Repr, DecidableEq

/-- The ready-state guard of `safeSendRealtimeInput`:
`typeof wsReadyState === 'number' && wsReadyState !== WebSocket.OPEN`. -/
def readyStateBad (rs : Option ℕ) : Bool :=
  match rs with
  | some n => n != wsOPEN
  | none => false

/-- The `safeSendRealtimeInput` callback (part_004 lines 290-316).
`wsReadyState` is the value read through the optional chain
`session.conn?.ws?.readyState` (`none` when the chain is undefined),
`sendThrows` tells whether the underlying `session.sendRealtimeInput`
call throws, and `errMsg` is the thrown error's message.  Returns the
boolean result together with the successor state. -/
def safeSendRealtimeInput (s : DashState) (wsReadyState : Option ℕ)
    (sendThrows : Bool) (errMsg : String) : Bool × DashState :=
  if s.sessionPresent = false ∨ s.geminiConnected = false then (false, s)
  else
    if readyStateBad wsReadyState then
      (false,
        { s with
            geminiConnected := false
            geminiConnectedUI := false
            sessionActive := false })
    else if sendThrows then
      (false,
        { s with
            log := addLogText ("Gemini socket send failed: " ++ errMsg) s.log
            sessionPresent := false
            geminiConnected := false
            geminiConnectedUI := false
            sessionActive := false })
    else (true, s)

/-- A close event delivered to the Gemini `onclose` callback. -/
structure GeminiCloseEvent where
  code : ℕ
  reason : String
  wasClean : Bool
  deriving Repr, DecidableEq

/-- The `onclose` callback of `connectGemini` (part_004 lines 389-415):
drop the cached flag and the session object; if unmounted, stop; log the
disconnect; if the close is not intentional, either surface a fatal
rejection for close code 1008 (no reconnect) or replace any pending
timer with a fresh 1200 ms reconnect timer. -/
def oncloseGemini (e : GeminiCloseEvent) (s : DashState) : DashState :=
  let s1 := { s with geminiConnected := false, sessionPresent := false }
  if s1.mounted then
    let s2 :=
      { s1 with
          geminiConnectedUI := false
          sessionActive := false
          log := addLogText ("Gemini Live disconnected") s1.log }
    if s2.intentionalClose then s2
    else if e.code = 1008 then
      { s2 with
          log := addLogText ("Gemini rejected session: "
            ++ (if e.reason = "" then ("model/policy error") else e.reason))
            s2.log }
    else { s2 with reconnectTimer := some GEMINI_RECONNECT_DELAY_MS }
  else s1

/-- The `disconnectGemini` callback (part_004 lines 491-502): set the
intentional-close flag, cancel any pending reconnect timer, drop the
cached flag and the session object, reset the UI states. -/
def disconnectGemini (s : DashState) : DashState :=
  { s with
      intentionalClose := true
      reconnectTimer := none
      geminiConnected := false
      sessionPresent := false
      geminiConnectedUI := false
      sessionActive := false }

/-- Process a sequence of close events in arrival order. -/
def applyCloses (es : List GeminiCloseEvent) (s : DashState) : DashState :=
  es.foldl (fun t e => oncloseGemini e t) s

lemma addLogText_head (t : String) (l : List String) :
    (addLogText t l).head? = some t := rfl

lemma applyCloses_nil (s : DashState) : applyCloses [] s = s := rfl

lemma applyCloses_cons (e : GeminiCloseEvent) (es : List GeminiCloseEvent)
    (s : DashState) :
    applyCloses (e :: es) s = applyCloses es (oncloseGemini e s) := rfl

lemma oncloseGemini_mounted (e : GeminiCloseEvent) (s : DashState) :
    (oncloseGemini e s).mounted = s.mounted := by
  simp only [oncloseGemini]
  split_ifs <;> rfl

lemma oncloseGemini_intentional (e : GeminiCloseEvent) (s : DashState) :
    (oncloseGemini e s).intentionalClose = s.intentionalClose := by
  simp only [oncloseGemini]
  split_ifs <;> rfl

lemma oncloseGemini_eq (e : GeminiCloseEvent) (s : DashState)
    (hm : s.mounted = true) (hi : s.intentionalClose = false) :
    oncloseGemini e s =
      if e.code = 1008 then
        { s with
            geminiConnected := false
            sessionPresent := false
            geminiConnectedUI := false
            sessionActive := false
            log := addLogText ("Gemini rejected session: "
                ++ (if e.reason = "" then ("model/policy error") else e.reason))
              (addLogText ("Gemini Live disconnected") s.log) }
      else
        { s with
            geminiConnected := false
            sessionPresent := false
            geminiConnectedUI := false
            sessionActive := false
            log := addLogText ("Gemini Live disconnected") s.log
            reconnectTimer := some GEMINI_RECONNECT_DELAY_MS } := by
  simp only [oncloseGemini, hm, hi, if_true, Bool.false_eq_true, if_false]

lemma oncloseGemini_timer_retry (e : GeminiCloseEvent) (s : DashState)
    (hm : s.mounted = true) (hi : s.intentionalClose = false)
    (hc : e.code ≠ 1008) :
    (oncloseGemini e s).reconnectTimer = some GEMINI_RECONNECT_DELAY_MS := by
  rw [oncloseGemini_eq e s hm hi, if_neg hc]

lemma oncloseGemini_timer_intentional (e : GeminiCloseEvent) (s : DashState)
    (hi : s.intentionalClose = true) :
    (oncloseGemini e s).reconnectTimer = s.reconnectTimer := by
  simp only [oncloseGemini, hi]
  split_ifs <;> rfl

lemma applyCloses_replicate_timer (e : GeminiCloseEvent) (hc : e.code ≠ 1008) :
    ∀ (k : ℕ) (s : DashState), s.mounted = true → s.intentionalClose = false →
      (applyCloses (List.replicate (k + 1) e) s).reconnectTimer
        = some GEMINI_RECONNECT_DELAY_MS := by
  intro k
  induction k with
  | zero =>
    intro s hm hi
    rw [List.replicate_one, applyCloses_cons, applyCloses_nil]
    exact oncloseGemini_timer_retry e s hm hi hc
  | succ k ih =>
    intro s hm hi
    rw [List.replicate_succ, applyCloses_cons]
    exact ih (oncloseGemini e s)
      (by rw [oncloseGemini_mounted, hm])
      (by rw [oncloseGemini_intentional, hi])

lemma applyCloses_intentional (es : List GeminiCloseEvent) :
    ∀ s : DashState, s.intentionalClose = true →
      (applyCloses es s).intentionalClose = true ∧
      (applyCloses es s).reconnectTimer = s.reconnectTimer := by
  induction es with
  | nil => intro s hi; exact ⟨hi, rfl⟩
  | cons e es ih =>
    intro s hi
    rw [applyCloses_cons]
    have h1 : (oncloseGemini e s).intentionalClose = true := by
      rw [oncloseGemini_intentional]; exact hi
    obtain ⟨ha, hb⟩ := ih (oncloseGemini e s) h1
    exact ⟨ha, by rw [hb, oncloseGemini_timer_intentional e s hi]⟩

/-- C1 counterexample: the close handler keeps no attempt counter and has
no attempt cap — for every candidate value of `maxAttempts`, after that
many consecutive retryable closes (and one more) from a live state the
handler has still scheduled a reconnect timer, so no `maxAttempts` exists
at which scheduling stops, refuting the claimed terminal behaviour. -/
theorem reconnect_no_attempt_cap :
    ¬ ∃ m : ℕ,
      (applyCloses (List.replicate (m + 1) ⟨1006, "network error", false⟩)
        (⟨true, true, true, true, true, false, none, []⟩ : DashState)).reconnectTimer
        = none := by
  rintro ⟨m, hm⟩
  rw [applyCloses_replicate_timer ⟨1006, "network error", false⟩ (by decide) m
    ⟨true, true, true, true, true, false, none, []⟩ rfl rfl] at hm
  exact Option.noConfusion hm

/-- C1 (amended): every retryable (non-intentional, non-fatal, that is
code ≠ 1008) close of the live session while mounted schedules a
reconnect timer with the fixed delay 1200 ms, replacing any pending
timer; there is no attempt counter, no exponential backoff and no
attempt cap — after any number of consecutive retryable closes the
timer is scheduled again with the same fixed delay. -/
theorem reconnect_fixed_delay (s : DashState) (e : GeminiCloseEvent)
    (hm : s.mounted = true) (hi : s.intentionalClose = false)
    (hc : e.code ≠ 1008) :
    (oncloseGemini e s).reconnectTimer = some GEMINI_RECONNECT_DELAY_MS ∧
    ∀ k : ℕ, (applyCloses (List.replicate (k + 1) e) s).reconnectTimer
      = some GEMINI_RECONNECT_DELAY_MS :=
  ⟨oncloseGemini_timer_retry e s hm hi hc,
    fun k => applyCloses_replicate_timer e hc k s hm hi⟩

/-- Witness for C1 (amended) at a concrete abnormal-closure event. -/
theorem reconnect_fixed_delay_witness :
    (oncloseGemini ⟨1006, "abnormal closure", false⟩
        ⟨true, true, true, true, true, false, some 1200, []⟩).reconnectTimer
      = some 1200 :=
  (reconnect_fixed_delay ⟨true, true, true, true, true, false, some 1200, []⟩
    ⟨1006, "abnormal closure", false⟩ rfl rfl (by decide)).1

/-- C5: a non-intentional close carrying the policy-rejection code 1008,
while mounted, leaves the session state fully disconnected, creates no
reconnect timer (the timer field is untouched), and surfaces a fatal log
entry ending in the close reason text; every other non-intentional close
schedules the reconnect timer instead. -/
theorem fatal_close_1008 (s : DashState) (e : GeminiCloseEvent)
    (hm : s.mounted = true) (hi : s.intentionalClose = false) :
    (e.code = 1008 →
      (oncloseGemini e s).geminiConnected = false ∧
      (oncloseGemini e s).geminiConnectedUI = false ∧
      (oncloseGemini e s).sessionActive = false ∧
      (oncloseGemini e s).sessionPresent = false ∧
      (oncloseGemini e s).reconnectTimer = s.reconnectTimer ∧
      (e.reason ≠ "" →
        (oncloseGemini e s).log.head?
          = some ("Gemini rejected session: " ++ e.reason))) ∧
    (e.code ≠ 1008 →
      (oncloseGemini e s).reconnectTimer = some GEMINI_RECONNECT_DELAY_MS) := by
  constructor
  · intro hc
    rw [oncloseGemini_eq e s hm hi, if_pos hc]
    refine ⟨rfl, rfl, rfl, rfl, rfl, ?_⟩
    intro hr
    rw [if_neg hr]
    exact addLogText_head _ _
  · intro hc
    exact oncloseGemini_timer_retry e s hm hi hc

/-- Witness for C5 at a concrete 1008 close event with a reason text. -/
theorem fatal_close_1008_witness :
    (oncloseGemini ⟨1008, "quota exceeded", true⟩
        ⟨true, true, true, true, true, false, none, []⟩).reconnectTimer = none ∧
    (oncloseGemini ⟨1008, "quota exceeded", true⟩
        ⟨true, true, true, true, true, false, none, []⟩).log.head?
      = some ("Gemini rejected session: " ++ "quota exceeded") := by
  have h := (fatal_close_1008 ⟨true, true, true, true, true, false, none, []⟩
    ⟨1008, "quota exceeded", true⟩ rfl rfl).1 rfl
  exact ⟨h.2.2.2.2.1, h.2.2.2.2.2 (by decide)⟩

/-- C6: after `disconnectGemini` sets the intentional-close flag and
cancels the pending timer, no sequence of subsequently processed close
events ever schedules a reconnect timer through the close handler: the
timer stays `none` (so the close path opens no new connection) and the
flag stays set. -/
theorem teardown_never_reschedules (s : DashState)
    (es : List GeminiCloseEvent) :
    (applyCloses es (disconnectGemini s)).reconnectTimer = none ∧
    (applyCloses es (disconnectGemini s)).intentionalClose = true := by
  have h := applyCloses_intentional es (disconnectGemini s) rfl
  refine ⟨?_, h.1⟩
  rw [h.2]
  rfl


lemma readyStateBad_some_false {n : ℕ} (h : readyStateBad (some n) = false) :
    n = wsOPEN := by
  simpa [readyStateBad] using h

/-- C2 counterexample: with a session object present and the cached flag
set but the transport ready-state unobservable (the optional chain
`session.conn?.ws?.readyState` is undefined, modelled as `none`),
`safeSendRealtimeInput` performs the send and returns true, although the
transport's live ready-state was never observed to be open — refuting
the claim that a send happens only when the ready-state is open. -/
theorem safeSend_sends_without_readyState :
    (safeSendRealtimeInput ⟨true, true, true, true, true, false, none, []⟩
      none false ("ignored")).1 = true ∧
    (none : Option ℕ) ≠ some wsOPEN :=
  ⟨rfl, by simp⟩

/-- C2 (amended): `safeSendRealtimeInput` sends only when a session
object exists, the cached connected flag is true, the ready-state is not
observed to be non-open (an unobservable ready-state does not block the
send) and the underlying send does not throw; an observed non-open
ready-state corrects the cached state to disconnected and returns false
rather than throwing; an actual send failure returns false, flips the
cached state to disconnected, drops the session object and surfaces a
log entry. -/
theorem safeSend_gating :
    (∀ (s : DashState) (rs : Option ℕ) (f : Bool) (m : String),
      (safeSendRealtimeInput s rs f m).1 = true →
        s.sessionPresent = true ∧ s.geminiConnected = true ∧ f = false ∧
        ∀ n, rs = some n → n = wsOPEN) ∧
    (∀ (s : DashState) (n : ℕ) (f : Bool) (m : String),
      s.sessionPresent = true → s.geminiConnected = true → n ≠ wsOPEN →
      (safeSendRealtimeInput s (some n) f m).1 = false ∧
      ((safeSendRealtimeInput s (some n) f m).2).geminiConnected = false ∧
      ((safeSendRealtimeInput s (some n) f m).2).geminiConnectedUI = false ∧
      ((safeSendRealtimeInput s (some n) f m).2).sessionActive = false) ∧
    (∀ (s : DashState) (rs : Option ℕ) (m : String),
      s.sessionPresent = true → s.geminiConnected = true →
      readyStateBad rs = false →
      (safeSendRealtimeInput s rs true m).1 = false ∧
      ((safeSendRealtimeInput s rs true m).2).geminiConnected = false ∧
      ((safeSendRealtimeInput s rs true m).2).sessionPresent = false ∧
      ((safeSendRealtimeInput s rs true m).2).sessionActive = false ∧
      ((safeSendRealtimeInput s rs true m).2).log.head?
        = some ("Gemini socket send failed: " ++ m)) := by
  refine ⟨?_, ?_, ?_⟩
  · intro s rs f m h
    rw [safeSendRealtimeInput] at h
    by_cases h1 : s.sessionPresent = false ∨ s.geminiConnected = false
    · rw [if_pos h1] at h
      cases h
    · rw [if_neg h1] at h
      push_neg at h1
      obtain ⟨ha, hb⟩ := h1
      have ha' : s.sessionPresent = true := by
        cases hx : s.sessionPresent
        · exact absurd hx ha
        · rfl
      have hb' : s.geminiConnected = true := by
        cases hx : s.geminiConnected
        · exact absurd hx hb
        · rfl
      cases hbad : readyStateBad rs with
      | true =>
        rw [hbad] at h
        cases h
      | false =>
        rw [hbad] at h
        simp only [Bool.false_eq_true, if_false] at h
        cases f with
        | true => simp at h
        | false =>
          refine ⟨ha', hb', rfl, ?_⟩
          rintro n rfl
          exact readyStateBad_some_false hbad
  · intro s n f m hsp hgc hn
    have h1 : ¬ (s.sessionPresent = false ∨ s.geminiConnected = false) := by
      rw [hsp, hgc]
      simp
    have hbad : readyStateBad (some n) = true := by
      simp [readyStateBad, hn]
    rw [safeSendRealtimeInput, if_neg h1, hbad]
    exact ⟨rfl, rfl, rfl, rfl⟩
  · intro s rs m hsp hgc hys
    have h1 : ¬ (s.sessionPresent = false ∨ s.geminiConnected = false) := by
      rw [hsp, hgc]
      simp
    rw [safeSendRealtimeInput, if_neg h1, hys]
    refine ⟨?_, ?_, ?_, ?_, ?_⟩ <;>
      simp [addLogText_head]

/-- Witness for C2 (amended): an observed non-open ready-state (3,
CLOSED) blocks the send and corrects the cached state, and a throwing
send flips the cached state and logs. -/
theorem safeSend_gating_witness :
    ((safeSendRealtimeInput ⟨true, true, true, true, true, false, none, []⟩
        (some 3) false ("x")).1 = false ∧
      ((safeSendRealtimeInput ⟨true, true, true, true, true, false, none, []⟩
        (some 3) false ("x")).2).geminiConnected = false) ∧
    ((safeSendRealtimeInput ⟨true, true, true, true, true, false, none, []⟩
        (some 1) true ("boom")).1 = false ∧
      ((safeSendRealtimeInput ⟨true, true, true, true, true, false, none, []⟩
        (some 1) true ("boom")).2).log.head?
        = some ("Gemini socket send failed: " ++ "boom")) := by
  have h2 := safeSend_gating.2.1 ⟨true, true, true, true, true, false, none, []⟩
    3 false ("x") rfl rfl (by decide)
  have h3 := safeSend_gating.2.2 ⟨true, true, true, true, true, false, none, []⟩
    (some 1) ("boom") rfl rfl (by decide)
  exact ⟨⟨h2.1, h2.2.1⟩, ⟨h3.1, h3.2.2.2.2⟩⟩

/-! ## `handleLiveMessage` (part_004 lines 318-352) -/

/-- A transcription fragment carried in `serverContent`. -/
structure Transcription where
  text : String
  finished : Bool
  deriving Repr, DecidableEq

/-- The `serverContent` part of a live message; an absent `serverContent`
in the source corresponds to all fields absent or false. -/
structure ServerContent where
  inputTranscription : Option Transcription
  outputTranscription : Option Transcription
  interrupted : Bool
  turnComplete : Bool
  deriving Repr, DecidableEq

/-- A live-session message: `data` is the base64-decoded audio payload
when `msg.data` is truthy (a non-empty base64 string), `text` is
`msg.text` when truthy. -/
structure LiveMessage where
  data : Option (List ℕ)
  text : Option String
  serverContent : ServerContent
  deriving Repr, DecidableEq

/-- The `handleLiveMessage` callback acting on the player (`playerRef`,
created on the first audio payload), the transcript and the log
texts. -/
def handleLiveMessage (m : LiveMessage) (player : Option PcmPlayer)
    (transcript : String) (log : List String) :
    Option PcmPlayer × String × List String :=
  let player1 :=
    match m.data with
    | some bytes => some ((player.getD PcmPlayer.init).feed bytes)
    | none => player
  let transcript1 :=
    match m.text with
    | some t => transcript ++ t
    | none => transcript
  let log1 :=
    match m.text with
    | some t => addLogText ("Gemini: " ++ t) log
    | none => log
  let log2 :=
    match m.serverContent.inputTranscription with
    | some tr =>
      if tr.text ≠ "" ∧ tr.finished then addLogText ("You: " ++ tr.text) log1
      else log1
    | none => log1
  let transcript2 :=
    match m.serverContent.outputTranscription with
    | some tr =>
      if tr.text ≠ "" ∧ tr.finished ∧ m.text = none then transcript1 ++ tr.text
      else transcript1
    | none => transcript1
  let player2 :=
    if m.serverContent.interrupted then player1.map PcmPlayer.clear
    else player1
  let log3 :=
    if m.serverContent.interrupted then addLogText ("Gemini interrupted") log2
    else log2
  let transcript3 :=
    if m.serverContent.turnComplete then
      (if transcript2 = "" then transcript2 else transcript2 ++ "\n")
    else transcript2
  (player2, transcript3, log3)

/-- C4: whenever a handled live message carries the interrupted signal,
the playback engine ends with an empty queue and a reset drain cursor
(either no player exists at all, or it is in the cleared state), and
rendering any number of samples from the cleared state yields pure
silence — no audio queued before the interruption is ever rendered
afterwards. -/
theorem interrupted_clears_playback (m : LiveMessage)
    (player : Option PcmPlayer) (transcript : String) (log : List String)
    (hint : m.serverContent.interrupted = true) :
    ((handleLiveMessage m player transcript log).1 = none ∨
      (handleLiveMessage m player transcript log).1 = some ⟨[], none, 0⟩) ∧
    ∀ n : ℕ, ((PcmPlayer.mk [] none 0).render n).1
      = List.replicate n (some 0) := by
  constructor
  · rcases hd : m.data with _ | bytes
    · rcases hp : player with _ | p
      · left
        simp [handleLiveMessage, hint, hd, hp]
      · right
        simp [handleLiveMessage, hint, hd, hp, PcmPlayer.clear]
    · right
      simp [handleLiveMessage, hint, hd, PcmPlayer.clear]
  · intro n
    have h := render_spec n ⟨[], none, 0⟩
      (by intro c hc; exact absurd hc (List.not_mem_nil c))
    simpa [PcmPlayer.rem] using h

/-- Witness for C4: a message carrying both a fresh audio frame and the
interrupted flag still leaves the engine cleared. -/
theorem interrupted_clears_playback_witness :
    (⟨some [1, 0], none,
        ⟨none, none, true, false⟩⟩ : LiveMessage).serverContent.interrupted
      = true ∧
    ((handleLiveMessage ⟨some [1, 0], none, ⟨none, none, true, false⟩⟩
        (some ⟨[[2]], some [3], 1⟩) ("t") []).1 = none ∨
      (handleLiveMessage ⟨some [1, 0], none, ⟨none, none, true, false⟩⟩
        (some ⟨[[2]], some [3], 1⟩) ("t") []).1 = some ⟨[], none, 0⟩) :=
  ⟨rfl, (interrupted_clears_playback _ _ _ _ rfl).1⟩

/-! ## Relay viewer and video frame throttle (part_004 lines 430-489 and
533-548) -/

/-- A parsed relay message handled by `connectBackendViewer`;
`malformed` covers a JSON parse failure. -/
inductive RelayMsg where
  | viewerConnected (sourceConnected : Bool)
  | sourceConnected
  | sourceDisconnected
  | videoPreview (data : String)
  | errorMsg (message : String)
  | malformed
  deriving Repr, DecidableEq

/-- The viewer-side state the relay handler touches: the `cameraOn` and
`hasPiPreview` React states, `latestPiFrameRef` (the empty string when
no frame is stored, as in the source) and the log texts. -/
structure ViewerState where
  cameraOn : Bool
  hasPiPreview : Bool
  latestPiFrame : String
  log : List String
  deriving Repr, DecidableEq

/-- The `onmessage` handler of `connectBackendViewer` (part_004 lines
441-473). -/
def onViewerMessage (m : RelayMsg) (s : ViewerState) : ViewerState :=
  match m with
  | .viewerConnected sc =>
    if sc then
      { s with
          cameraOn := true
          log := addLogText ("Pi source already connected") s.log }
    else s
  | .sourceConnected =>
    { s with
        cameraOn := true
        log := addLogText ("Pi source connected") s.log }
  | .sourceDisconnected =>
    { s with
        cameraOn := false
        hasPiPreview := false
        latestPiFrame := ""
        log := addLogText ("Pi source disconnected") s.log }
  | .videoPreview d =>
    if d = "" then s
    else
      { s with
          latestPiFrame := d
          hasPiPreview := true }
  | .errorMsg msg =>
    { s with log := addLogText ("Relay error: " ++ msg) s.log }
  | .malformed =>
    { s with log := addLogText ("Malformed relay message") s.log }

/-- One tick of the frame-throttle interval (part_004 lines 533-548):
the interval exists only while `cameraOn` is true, and a tick forwards
the stored latest frame unless it is empty.  Returns the forwarded
frame data, if any. -/
def frameTick (s : ViewerState) : Option String :=
  if s.cameraOn = false then none
  else if s.latestPiFrame = "" then none
  else some s.latestPiFrame

/-- Process relay messages in arrival order. -/
def applyViewerMsgs (ms : List RelayMsg) (s : ViewerState) : ViewerState :=
  ms.foldl (fun t m => onViewerMessage m t) s

lemma applyViewerMsgs_cons (m : RelayMsg) (ms : List RelayMsg)
    (s : ViewerState) :
    applyViewerMsgs (m :: ms) s = applyViewerMsgs ms (onViewerMessage m s) :=
  rfl

lemma frameTick_empty (s : ViewerState) (h : s.latestPiFrame = "") :
    frameTick s = none := by
  rw [frameTick, h]
  by_cases hc : s.cameraOn = false
  · rw [if_pos hc]
  · rw [if_neg hc, if_pos rfl]

lemma onViewerMessage_latest_empty (m : RelayMsg) (s : ViewerState)
    (hs : s.latestPiFrame = "")
    (hm : ∀ d, m = RelayMsg.videoPreview d → d = "") :
    (onViewerMessage m s).latestPiFrame = "" := by
  cases m with
  | viewerConnected sc => cases sc <;> simp [onViewerMessage, hs]
  | sourceConnected => simp [onViewerMessage, hs]
  | sourceDisconnected => simp [onViewerMessage]
  | videoPreview d =>
    have hd : d = "" := hm d rfl
    simp [onViewerMessage, hd, hs]
  | errorMsg msg => simp [onViewerMessage, hs]
  | malformed => simp [onViewerMessage, hs]

lemma applyViewerMsgs_latest_empty (ms : List RelayMsg) :
    ∀ s : ViewerState, s.latestPiFrame = "" →
      (∀ d, RelayMsg.videoPreview d ∈ ms → d = "") →
      (applyViewerMsgs ms s).latestPiFrame = "" := by
  induction ms with
  | nil => intro s hs _; exact hs
  | cons m ms ih =>
    intro s hs hall
    rw [applyViewerMsgs_cons]
    have h1 : (onViewerMessage m s).latestPiFrame = "" :=
      onViewerMessage_latest_empty m s hs
        (fun d hd => hall d (by rw [← hd]; exact List.mem_cons_self m ms))
    exact ih (onViewerMessage m s) h1
      (fun d hd => hall d (List.mem_cons_of_mem m hd))

/-- C7: a throttle tick forwards at most one frame, and only ever the
stored most recent one; `source_disconnected` clears the stored frame
and the camera-presence flag, and after it every tick forwards nothing
as long as no non-empty `video_preview` frame arrives; a non-empty
`video_preview` overwrites the stored frame with the newest data. -/
theorem frame_throttle_latest_only :
    (∀ s : ViewerState,
      frameTick s = none ∨ frameTick s = some s.latestPiFrame) ∧
    (∀ s : ViewerState,
      (onViewerMessage RelayMsg.sourceDisconnected s).latestPiFrame = "" ∧
      (onViewerMessage RelayMsg.sourceDisconnected s).cameraOn = false ∧
      frameTick (onViewerMessage RelayMsg.sourceDisconnected s) = none) ∧
    (∀ (s : ViewerState) (ms : List RelayMsg),
      (∀ d, RelayMsg.videoPreview d ∈ ms → d = "") →
      frameTick (applyViewerMsgs ms
        (onViewerMessage RelayMsg.sourceDisconnected s)) = none) ∧
    (∀ (s : ViewerState) (d : String), d ≠ "" →
      (onViewerMessage (RelayMsg.videoPreview d) s).latestPiFrame = d) := by
  refine ⟨?_, ?_, ?_, ?_⟩
  · intro s
    rw [frameTick]
    split_ifs <;> simp
  · intro s
    exact ⟨rfl, rfl, frameTick_empty _ rfl⟩
  · intro s ms hall
    exact frameTick_empty _ (applyViewerMsgs_latest_empty ms _ rfl hall)
  · intro s d hd
    simp [onViewerMessage, hd]

/-- Witness for C7: after a source disconnect, a reconnect of the source
without any new frame still yields a silent tick, and a fresh non-empty
frame replaces the stored one. -/
theorem frame_throttle_latest_only_witness :
    frameTick (applyViewerMsgs [RelayMsg.sourceConnected]
      (onViewerMessage RelayMsg.sourceDisconnected
        ⟨true, true, "frame", []⟩)) = none ∧
    (onViewerMessage (RelayMsg.videoPreview ("data64"))
      ⟨true, true, "old", []⟩).latestPiFrame = "data64" := by
  constructor
  · exact frame_throttle_latest_only.2.2.1 ⟨true, true, "frame", []⟩
      [RelayMsg.sourceConnected] (fun d hd => absurd hd (by simp))
  · exact frame_throttle_latest_only.2.2.2 ⟨true, true, "old", []⟩
      ("data64") (by decide)

/-! ## Activity log bound (part_004 lines 283-288, part_003 lines
156-161) -/

/-- C10: after every `addLog` the log holds at most `MAX_LOG` (120)
entries, the newest entry is at the front, and adding to a full log
drops the oldest entry. -/
theorem addLog_bounded (entry : LogEntry) (prev : List LogEntry) :
    (addLog entry prev).length ≤ MAX_LOG ∧
    (addLog entry prev).head? = some entry ∧
    (prev.length = MAX_LOG → addLog entry prev = entry :: prev.dropLast) := by
  refine ⟨?_, rfl, ?_⟩
  · rw [addLog]
    exact List.length_take_le _ _
  · intro hfull
    rw [addLog]
    have h1 : (entry :: prev).take MAX_LOG = entry :: prev.take 119 := rfl
    rw [h1, List.dropLast_eq_take, hfull]
    rfl

/-- Witness for C10 at a full 120-entry log: the oldest entry is
dropped. -/
theorem addLog_bounded_witness :
    (List.replicate 120 (⟨0, "t0", "old"⟩ : LogEntry)).length = MAX_LOG ∧
    addLog ⟨1, "t1", "new"⟩ (List.replicate 120 ⟨0, "t0", "old"⟩)
      = ⟨1, "t1", "new"⟩
        :: (List.replicate 120 (⟨0, "t0", "old"⟩ : LogEntry)).dropLast := by
  constructor
  · rfl
  · exact (addLog_bounded ⟨1, "t1", "new"⟩
      (List.replicate 120 ⟨0, "t0", "old"⟩)).2.2 rfl

/-! ## SpeechQueue flush policy (specification §4.5) -/

/-- Modelled from the spec: the repository source under `src/` contains
no SpeechQueue implementation (the speech-synthesis text queue of §4.5
exists only in the specification), so the flush policy is taken from
the spec's words.  A character is terminal punctuation when it is one
of the three sentence enders. -/
def isTerminalPunct (c : Char) : Bool :=
  c = '.' || c = '!' || c = '?'

/-- Modelled from the spec: the pending buffer ends in terminal
punctuation optionally followed by whitespace. -/
def endsInTerminalPunct (s : String) : Bool :=
  match s.toList.reverse.dropWhile Char.isWhitespace with
  | [] => false
  | c :: _ => isTerminalPunct c

/-- Modelled from the spec: the ≈32-character flush threshold. -/
def SPEECH_FLUSH_THRESHOLD : ℕ := 32

/-- Modelled from the spec: outside `turnComplete`, pending text becomes
a speech chunk when it ends in terminal punctuation or its length
exceeds the threshold. -/
def shouldFlushPending (buf : String) : Bool :=
  endsInTerminalPunct buf || decide (buf.length > SPEECH_FLUSH_THRESHOLD)

/-- Modelled from the spec: the full flush decision; on `turnComplete`
any non-empty pending buffer is flushed unconditionally. -/
def speechFlushDecision (buf : String) (turnComplete : Bool) : Bool :=
  if turnComplete then decide (buf ≠ "") else shouldFlushPending buf

/-- C8 counterexample: the text named by the claim, "Obstacle ahead.",
is 15 characters long, not 16; the flush behaviour claimed for it does
hold. -/
theorem obstacle_ahead_not_sixteen :
    shouldFlushPending ("Obstacle ahead.") = true ∧
    ("Obstacle ahead.").length ≠ 16 := by
  constructor
  · decide
  · decide

/-- C8 (amended; the SpeechQueue is modelled from the spec because no
implementation exists under `src/`): pending text flushes exactly when
it ends in terminal punctuation optionally followed by whitespace or
its length exceeds the 32-character threshold, and on `turnComplete`
any non-empty buffer flushes unconditionally; in particular the
15-character text "Obstacle ahead." flushes immediately while below the
length threshold, and 40 unpunctuated characters flush by length
alone. -/
theorem speech_flush_policy :
    (∀ buf : String,
      shouldFlushPending buf = true ↔
        (endsInTerminalPunct buf = true ∨
          buf.length > SPEECH_FLUSH_THRESHOLD)) ∧
    (∀ buf : String, speechFlushDecision buf true = true ↔ buf ≠ "") ∧
    (∀ buf : String, speechFlushDecision buf false = shouldFlushPending buf) ∧
    (shouldFlushPending ("Obstacle ahead.") = true ∧
      ("Obstacle ahead.").length = 15 ∧
      ¬ ("Obstacle ahead.").length > SPEECH_FLUSH_THRESHOLD) ∧
    (shouldFlushPending (String.mk (List.replicate 40 'a')) = true ∧
      endsInTerminalPunct (String.mk (List.replicate 40 'a')) = false) := by
  refine ⟨?_, ?_, ?_, ?_, ?_⟩
  · intro buf
    simp [shouldFlushPending]
  · intro buf
    simp [speechFlushDecision]
  · intro buf
    simp [speechFlushDecision]
  · refine ⟨by decide, by decide, by decide⟩
  · refine ⟨by decide, by decide⟩

end Sense
